import Mathlib

/-!
Verification development for the datajoint-link replication core.

The development shallowly embeds the replication state machine of the
link (states, entity operations, gateway command application, domain
services and the fixed-point use-case driver), the reconciler control
flow of the table-level implementation, and the outbound repository of
the older repository/flag-manager design, and proves the specified
invariants and functional properties about them.
-/

namespace DJLink

/-- Opaque entity identifier (a primary-key value in the backing store). -/
abbrev Identifier := Nat

/-- Modelled from the spec: active long-running operations attached to
individual entities (`Processes` in `dj_link.domain.state`, whose source
module is absent; pinned by `tests/unit/entities/test_state.py`). -/
inductive Processes where
  | PULL
  | DELETE
deriving DecidableEq, Repr

/-- Modelled from the spec: the six named entity states of the
twelve-configuration life-cycle (`states` in `dj_link.domain.state`). -/
inductive State where
  | Idle
  | Activated
  | Received
  | Pulled
  | Tainted
  | Deprecated
deriving DecidableEq, Repr

/-- Modelled from the spec: the command alphabet the gateway executes
atomically (`Commands` in `dj_link.domain.state`). -/
inductive Commands where
  | START_PULL_PROCESS
  | ADD_TO_LOCAL
  | FINISH_PULL_PROCESS
  | START_DELETE_PROCESS
  | REMOVE_FROM_LOCAL
  | FINISH_DELETE_PROCESS
  | DEPRECATE
deriving DecidableEq, Repr

/-- Modelled from the spec: a state change `Transition(current, new)`. -/
structure Transition where
  current : State
  new : State
deriving DecidableEq, Repr

/-- Modelled from the spec: `Update(identifier, transition, commands)`;
an empty `commands`/`transition` means the operation is a no-op in the
entity's current state. -/
structure Update where
  identifier : Identifier
  transition : Option Transition
  commands : Finset Commands
deriving DecidableEq

/-- An update is state-changing when it carries a transition
(`Update.is_state_changing` used by the fixed-point loop in
`dj_link/use_cases/use_cases.py`). -/
def Update.is_state_changing (u : Update) : Bool :=
  u.transition.isSome

/-- The empty (no-op) update for an identifier. -/
def emptyUpdate (i : Identifier) : Update :=
  ⟨i, none, ∅⟩

/-- Modelled from the spec: an entity value derived from the tuple
(identifier, assignments, taint, process) (`Entity` in
`dj_link.domain.state`). -/
structure Entity where
  identifier : Identifier
  state : State
  current_process : Option Processes
  is_tainted : Bool
deriving DecidableEq, Repr

/-- Modelled from the spec: `Entity.pull()` requests to start a pull:
`Idle → Activated` emitting `START_PULL_PROCESS`, every other state
yields an empty update (spec section 4.1; pinned by
`test_pulling_idle_entity_returns_correct_commands`). -/
def Entity.pull (e : Entity) : Update :=
  match e.state with
  | .Idle => ⟨e.identifier, some ⟨.Idle, .Activated⟩, {.START_PULL_PROCESS}⟩
  | _ => emptyUpdate e.identifier

/-- Modelled from the spec: `Entity.delete()` requests to start a delete:
`Pulled → Received` and `Tainted → Received` emitting
`START_DELETE_PROCESS`, every other state yields an empty update. -/
def Entity.delete (e : Entity) : Update :=
  match e.state with
  | .Pulled => ⟨e.identifier, some ⟨.Pulled, .Received⟩, {.START_DELETE_PROCESS}⟩
  | .Tainted => ⟨e.identifier, some ⟨.Tainted, .Received⟩, {.START_DELETE_PROCESS}⟩
  | _ => emptyUpdate e.identifier

/-- Modelled from the spec: `Entity.process()` advances a running process
one step according to the transition table of spec section 4.1 (pinned by
`test_processing_activated_entity_returns_correct_commands` and
`test_processing_received_entity_returns_correct_commands`). -/
def Entity.process (e : Entity) : Update :=
  match e.state, e.current_process, e.is_tainted with
  | .Activated, some .PULL, false =>
      ⟨e.identifier, some ⟨.Activated, .Received⟩, {.ADD_TO_LOCAL}⟩
  | .Activated, some .PULL, true =>
      ⟨e.identifier, some ⟨.Activated, .Deprecated⟩, {.DEPRECATE}⟩
  | .Activated, some .DELETE, false =>
      ⟨e.identifier, some ⟨.Activated, .Idle⟩, {.FINISH_DELETE_PROCESS}⟩
  | .Activated, some .DELETE, true =>
      ⟨e.identifier, some ⟨.Activated, .Deprecated⟩, {.DEPRECATE}⟩
  | .Received, some .PULL, false =>
      ⟨e.identifier, some ⟨.Received, .Pulled⟩, {.FINISH_PULL_PROCESS}⟩
  | .Received, some .PULL, true =>
      ⟨e.identifier, some ⟨.Received, .Tainted⟩, {.FINISH_PULL_PROCESS}⟩
  | .Received, some .DELETE, _ =>
      ⟨e.identifier, some ⟨.Received, .Activated⟩, {.REMOVE_FROM_LOCAL}⟩
  | _, _, _ => emptyUpdate e.identifier

/-- The per-identifier configuration recorded by the gateway: membership
in the three component assignments, the taint set and the two process
sets. -/
structure Config where
  inSource : Bool
  inOutbound : Bool
  inLocal : Bool
  isTainted : Bool
  inPull : Bool
  inDelete : Bool
deriving DecidableEq, Repr, Fintype

/-- The configuration of an identifier that is recorded nowhere. -/
def emptyConfig : Config :=
  ⟨false, false, false, false, false, false⟩

/-- The active process of a configuration (the pull process set is
consulted first, mirroring the order the fake gateway stores them in). -/
def procOfConfig (c : Config) : Option Processes :=
  if c.inPull then some .PULL
  else if c.inDelete then some .DELETE
  else none

/-- Modelled from the spec: the state classification table of spec
section 3 mapping (assignments, process, taint) to the entity state;
configurations outside the table are unclassifiable (`create_link` in
`dj_link.domain.link`, whose source module is absent). -/
def stateOfConfig (c : Config) : Option State :=
  match c.inSource, c.inOutbound, c.inLocal, procOfConfig c, c.isTainted with
  | true, false, false, none, false => some .Idle
  | true, true, false, some _, _ => some .Activated
  | true, true, true, some _, _ => some .Received
  | true, true, true, none, false => some .Pulled
  | true, true, true, none, true => some .Tainted
  | true, true, false, none, true => some .Deprecated
  | _, _, _, _, _ => none

/-- A configuration is valid when it classifies to a state and has at
most one active process. -/
def validConfig (c : Config) : Prop :=
  (stateOfConfig c).isSome = true ∧ ¬(c.inPull = true ∧ c.inDelete = true)

instance : DecidablePred validConfig := fun c => by
  unfold validConfig; infer_instance

/-- A configuration is admissible when it is valid or entirely absent. -/
def okConfig (c : Config) : Prop :=
  validConfig c ∨ c = emptyConfig

instance : DecidablePred okConfig := fun c => by
  unfold okConfig; infer_instance

/-- Modelled from the spec: the entity derived from a configuration. -/
def entityOfConfig (i : Identifier) (c : Config) : Option Entity :=
  (stateOfConfig c).map fun s => ⟨i, s, procOfConfig c, c.isTainted⟩

/-- The persistent state held by the link gateway: the three component
assignments, the taint set and the per-process identifier sets
(`FakeLinkGateway.__init__` in `tests/integration/test_use_cases.py`). -/
structure GatewayState where
  sourceAssignment : Finset Identifier
  outboundAssignment : Finset Identifier
  localAssignment : Finset Identifier
  taintedIdentifiers : Finset Identifier
  pullProcesses : Finset Identifier
  deleteProcesses : Finset Identifier
deriving DecidableEq

/-- Every identifier recorded anywhere in the gateway state. -/
def GatewayState.allIdentifiers (g : GatewayState) : Finset Identifier :=
  g.sourceAssignment ∪ g.outboundAssignment ∪ g.localAssignment ∪
    g.taintedIdentifiers ∪ g.pullProcesses ∪ g.deleteProcesses

/-- The configuration of one identifier in a gateway state. -/
def config (g : GatewayState) (i : Identifier) : Config :=
  ⟨decide (i ∈ g.sourceAssignment), decide (i ∈ g.outboundAssignment),
    decide (i ∈ g.localAssignment), decide (i ∈ g.taintedIdentifiers),
    decide (i ∈ g.pullProcesses), decide (i ∈ g.deleteProcesses)⟩

/-- Executing a single command for an identifier on the gateway state,
translated branch by branch from `FakeLinkGateway.apply`
(`tests/integration/test_use_cases.py`): starting a pull inserts the
outbound row and the pull process, `DEPRECATE` removes whichever process
is active (the delete process is tried first), and so on. -/
def applyCommand (g : GatewayState) (i : Identifier) : Commands → GatewayState
  | .START_PULL_PROCESS =>
      { g with pullProcesses := insert i g.pullProcesses,
               outboundAssignment := insert i g.outboundAssignment }
  | .ADD_TO_LOCAL =>
      { g with localAssignment := insert i g.localAssignment }
  | .FINISH_PULL_PROCESS =>
      { g with pullProcesses := g.pullProcesses.erase i }
  | .START_DELETE_PROCESS =>
      { g with deleteProcesses := insert i g.deleteProcesses }
  | .REMOVE_FROM_LOCAL =>
      { g with localAssignment := g.localAssignment.erase i }
  | .FINISH_DELETE_PROCESS =>
      { g with deleteProcesses := g.deleteProcesses.erase i,
               outboundAssignment := g.outboundAssignment.erase i }
  | .DEPRECATE =>
      if i ∈ g.deleteProcesses then
        { g with deleteProcesses := g.deleteProcesses.erase i }
      else
        { g with pullProcesses := g.pullProcesses.erase i }

/-- The total command order of spec section 4.1 in which the gateway
executes the commands of one update. -/
def commandOrder : List Commands :=
  [.START_PULL_PROCESS, .START_DELETE_PROCESS, .ADD_TO_LOCAL,
    .REMOVE_FROM_LOCAL, .FINISH_PULL_PROCESS, .FINISH_DELETE_PROCESS,
    .DEPRECATE]

/-- Executing every command of one update, in the command order. -/
def applyUpdate (g : GatewayState) (u : Update) : GatewayState :=
  (commandOrder.filter fun k => decide (k ∈ u.commands)).foldl
    (fun g' k => applyCommand g' u.identifier k) g

/-- Executing a batch of updates (`LinkGateway.apply`). -/
def applyUpdates (g : GatewayState) (us : List Update) : GatewayState :=
  us.foldl applyUpdate g

/-- The pure effect of a single command on one identifier's
configuration, mirroring `applyCommand`. -/
def commandEffect : Commands → Config → Config
  | .START_PULL_PROCESS, c => { c with inPull := true, inOutbound := true }
  | .ADD_TO_LOCAL, c => { c with inLocal := true }
  | .FINISH_PULL_PROCESS, c => { c with inPull := false }
  | .START_DELETE_PROCESS, c => { c with inDelete := true }
  | .REMOVE_FROM_LOCAL, c => { c with inLocal := false }
  | .FINISH_DELETE_PROCESS, c => { c with inDelete := false, inOutbound := false }
  | .DEPRECATE, c =>
      if c.inDelete then { c with inDelete := false } else { c with inPull := false }

/-- The pure effect of one update on one identifier's configuration. -/
def updateEffect (u : Update) (c : Config) : Config :=
  (commandOrder.filter fun k => decide (k ∈ u.commands)).foldl
    (fun c' k => commandEffect k c') c

theorem config_applyCommand (g : GatewayState) (j : Identifier) (k : Commands)
    (i : Identifier) :
    config (applyCommand g j k) i =
      if i = j then commandEffect k (config g i) else config g i := by
  by_cases h : i = j
  · subst h
    cases k <;>
      simp [config, applyCommand, commandEffect, Finset.mem_insert,
        Finset.mem_erase, decide_eq_decide]
    by_cases hd : i ∈ g.deleteProcesses <;>
      simp [hd, config, Finset.mem_erase, decide_eq_decide]
  · cases k <;>
      simp [config, applyCommand, commandEffect, h, Finset.mem_insert,
        Finset.mem_erase, decide_eq_decide]
    by_cases hd : j ∈ g.deleteProcesses <;>
      simp [hd, config, h, Finset.mem_erase, decide_eq_decide]

theorem config_foldl_commands (L : List Commands) (g : GatewayState)
    (j i : Identifier) :
    config (L.foldl (fun g' k => applyCommand g' j k) g) i =
      if i = j then L.foldl (fun c' k => commandEffect k c') (config g i)
      else config g i := by
  induction L generalizing g with
  | nil => split <;> rfl
  | cons k L ih =>
      simp only [List.foldl_cons]
      rw [ih, config_applyCommand]
      by_cases h : i = j <;> simp [h]

theorem config_applyUpdate (g : GatewayState) (u : Update) (i : Identifier) :
    config (applyUpdate g u) i =
      if i = u.identifier then updateEffect u (config g i) else config g i :=
  config_foldl_commands _ g u.identifier i

theorem config_applyUpdates_not_mem (g : GatewayState) (us : List Update)
    (i : Identifier) (h : ∀ u ∈ us, u.identifier ≠ i) :
    config (applyUpdates g us) i = config g i := by
  induction us generalizing g with
  | nil => rfl
  | cons u us ih =>
      show config (applyUpdates (applyUpdate g u) us) i = config g i
      rw [ih _ fun v hv => h v (List.mem_cons_of_mem u hv)]
      rw [config_applyUpdate]
      exact if_neg fun hiu => h u (List.mem_cons_self u us) hiu.symm

theorem config_applyUpdates_mem (g : GatewayState) (us : List Update)
    (i : Identifier) (hn : (us.map Update.identifier).Nodup) (u : Update)
    (hu : u ∈ us) (hi : u.identifier = i) :
    config (applyUpdates g us) i = updateEffect u (config g i) := by
  induction us generalizing g with
  | nil => cases hu
  | cons v us ih =>
      rcases List.mem_cons.mp hu with rfl | hu
      · show config (applyUpdates (applyUpdate g u) us) i = _
        have hrest : ∀ w ∈ us, w.identifier ≠ i := by
          intro w hw hwi
          have hmem : w.identifier ∈ us.map Update.identifier :=
            List.mem_map_of_mem Update.identifier hw
          rw [hwi, ← hi] at hmem
          exact (List.nodup_cons.mp hn).1 hmem
        rw [config_applyUpdates_not_mem _ _ _ hrest, config_applyUpdate]
        simp [hi]
      · show config (applyUpdates (applyUpdate g v) us) i = _
        have hv : v.identifier ≠ i := by
          intro hvi
          have hmem : u.identifier ∈ us.map Update.identifier :=
            List.mem_map_of_mem Update.identifier hu
          rw [hi, ← hvi] at hmem
          exact (List.nodup_cons.mp hn).1 hmem
        rw [ih _ (List.nodup_cons.mp hn).2 hu]
        rw [config_applyUpdate]
        rw [if_neg fun hiv => hv hiv.symm]

theorem tainted_applyCommand (g : GatewayState) (j : Identifier) (k : Commands) :
    (applyCommand g j k).taintedIdentifiers = g.taintedIdentifiers := by
  cases k <;> first
    | rfl
    | (unfold applyCommand
       split <;> try rfl
       split <;> rfl)

/-- Modelled from the spec: deriving the entity of one identifier from
the gateway snapshot (part of `create_link`). -/
def createEntity (g : GatewayState) (i : Identifier) : Option Entity :=
  entityOfConfig i (config g i)

/-- Modelled from the spec: the set of entities of the link, derived by
projecting assignments, taints and processes over the union of all
identifiers present anywhere (`create_link`); identifiers whose
configuration is not classifiable are skipped.  Identifiers are visited
in ascending order for determinism. -/
def linkEntities (g : GatewayState) : List Entity :=
  (g.allIdentifiers.sort (· ≤ ·)).filterMap (createEntity g)

/-- The per-entity operation performed by the pull domain service (spec
section 4.2): the entity's own `pull()` update, or, for an entity already
in flight, the update advancing its process. -/
def pullOp (e : Entity) : Update :=
  if (Entity.pull e).is_state_changing then Entity.pull e else Entity.process e

/-- The per-entity operation performed by the delete domain service. -/
def deleteOp (e : Entity) : Update :=
  if (Entity.delete e).is_state_changing then Entity.delete e else Entity.process e

/-- Modelled from the spec: the `pull(link, requested)` domain service;
requested identifiers unknown to the link are skipped. -/
def pullService (g : GatewayState) (requested : Finset Identifier) : List Update :=
  ((linkEntities g).filter fun e => decide (e.identifier ∈ requested)).map pullOp

/-- Modelled from the spec: the `delete(link, requested)` domain service. -/
def deleteService (g : GatewayState) (requested : Finset Identifier) : List Update :=
  ((linkEntities g).filter fun e => decide (e.identifier ∈ requested)).map deleteOp

/-- Modelled from the spec: the `process(link)` domain service returning
the state-changing `process()` updates of every entity of the link. -/
def processService (g : GatewayState) : List Update :=
  ((linkEntities g).map Entity.process).filter Update.is_state_changing

/-- The pure effect on one identifier's configuration of the per-entity
operation `op` (no effect when the configuration is unclassifiable). -/
def opEffect (op : Entity → Update) (c : Config) : Config :=
  match stateOfConfig c with
  | none => c
  | some s => updateEffect (op ⟨0, s, procOfConfig c, c.isTainted⟩) c

theorem pull_shift (i j : Identifier) (s : State) (p : Option Processes) (t : Bool) :
    Entity.pull ⟨i, s, p, t⟩ =
      ⟨i, (Entity.pull ⟨j, s, p, t⟩).transition, (Entity.pull ⟨j, s, p, t⟩).commands⟩ := by
  cases s <;> rfl

theorem delete_shift (i j : Identifier) (s : State) (p : Option Processes) (t : Bool) :
    Entity.delete ⟨i, s, p, t⟩ =
      ⟨i, (Entity.delete ⟨j, s, p, t⟩).transition, (Entity.delete ⟨j, s, p, t⟩).commands⟩ := by
  cases s <;> rfl

theorem process_shift (i j : Identifier) (s : State) (p : Option Processes) (t : Bool) :
    Entity.process ⟨i, s, p, t⟩ =
      ⟨i, (Entity.process ⟨j, s, p, t⟩).transition, (Entity.process ⟨j, s, p, t⟩).commands⟩ := by
  cases s <;> cases t <;> rcases p with _ | q <;> try rfl
  all_goals cases q <;> rfl

theorem pullOp_shift (i j : Identifier) (s : State) (p : Option Processes) (t : Bool) :
    pullOp ⟨i, s, p, t⟩ =
      ⟨i, (pullOp ⟨j, s, p, t⟩).transition, (pullOp ⟨j, s, p, t⟩).commands⟩ := by
  cases s <;> cases t <;> rcases p with _ | q <;> try rfl
  all_goals cases q <;> rfl

theorem deleteOp_shift (i j : Identifier) (s : State) (p : Option Processes) (t : Bool) :
    deleteOp ⟨i, s, p, t⟩ =
      ⟨i, (deleteOp ⟨j, s, p, t⟩).transition, (deleteOp ⟨j, s, p, t⟩).commands⟩ := by
  cases s <;> cases t <;> rcases p with _ | q <;> try rfl
  all_goals cases q <;> rfl

theorem pullOp_identifier (e : Entity) : (pullOp e).identifier = e.identifier := by
  obtain ⟨i, s, p, t⟩ := e
  rw [pullOp_shift i i]

theorem deleteOp_identifier (e : Entity) : (deleteOp e).identifier = e.identifier := by
  obtain ⟨i, s, p, t⟩ := e
  rw [deleteOp_shift i i]

theorem process_identifier (e : Entity) :
    (Entity.process e).identifier = e.identifier := by
  obtain ⟨i, s, p, t⟩ := e
  rw [process_shift i i]

theorem updateEffect_congr {u v : Update} (h : u.commands = v.commands)
    (c : Config) : updateEffect u c = updateEffect v c := by
  unfold updateEffect
  rw [h]

theorem createEntity_identifier {g : GatewayState} {i : Identifier} {e : Entity}
    (h : createEntity g i = some e) : e.identifier = i := by
  unfold createEntity entityOfConfig at h
  cases hs : stateOfConfig (config g i) with
  | none => rw [hs] at h; cases h
  | some s => rw [hs] at h; cases h; rfl

theorem createEntity_elim {g : GatewayState} {i : Identifier} {e : Entity}
    (h : createEntity g i = some e) :
    stateOfConfig (config g i) = some e.state ∧
      e = ⟨i, e.state, procOfConfig (config g i), (config g i).isTainted⟩ := by
  unfold createEntity entityOfConfig at h
  cases hs : stateOfConfig (config g i) with
  | none => rw [hs] at h; cases h
  | some s => rw [hs] at h; cases h; exact ⟨rfl, rfl⟩

theorem inSource_of_stateOfConfig_isSome :
    ∀ c : Config, (stateOfConfig c).isSome = true → c.inSource = true := by
  decide

theorem source_subset_allIdentifiers (g : GatewayState) :
    g.sourceAssignment ⊆ g.allIdentifiers := by
  intro i hi
  unfold GatewayState.allIdentifiers
  simp [hi]

theorem mem_linkEntities {g : GatewayState} {e : Entity} :
    e ∈ linkEntities g ↔ createEntity g e.identifier = some e := by
  constructor
  · intro h
    obtain ⟨i, _, hi⟩ := List.mem_filterMap.mp h
    rwa [createEntity_identifier hi]
  · intro h
    refine List.mem_filterMap.mpr ⟨e.identifier, ?_, h⟩
    rw [Finset.mem_sort]
    apply source_subset_allIdentifiers
    have hs := (createEntity_elim h).1
    have : (config g e.identifier).inSource = true :=
      inSource_of_stateOfConfig_isSome _ (by rw [hs]; rfl)
    unfold config at this
    simpa using of_decide_eq_true this

theorem map_identifier_linkEntities (g : GatewayState) :
    (linkEntities g).map Entity.identifier =
      (g.allIdentifiers.sort (· ≤ ·)).filter fun i => (createEntity g i).isSome := by
  unfold linkEntities
  generalize (g.allIdentifiers.sort (· ≤ ·)) = l
  induction l with
  | nil => rfl
  | cons i l ih =>
      rw [List.filterMap_cons, List.filter_cons]
      cases hi : createEntity g i with
      | none => simpa [hi] using ih
      | some e =>
          rw [List.map_cons, ih, createEntity_identifier hi]
          simp [hi]

theorem nodup_identifiers_linkEntities (g : GatewayState) :
    ((linkEntities g).map Entity.identifier).Nodup := by
  rw [map_identifier_linkEntities]
  exact (Finset.sort_nodup _ _).filter _

theorem tainted_applyUpdate (g : GatewayState) (u : Update) :
    (applyUpdate g u).taintedIdentifiers = g.taintedIdentifiers := by
  show ((commandOrder.filter _).foldl _ g).taintedIdentifiers = _
  generalize commandOrder.filter _ = L
  induction L generalizing g with
  | nil => rfl
  | cons k L ih => rw [List.foldl_cons, ih, tainted_applyCommand]

theorem tainted_applyUpdates (g : GatewayState) (us : List Update) :
    (applyUpdates g us).taintedIdentifiers = g.taintedIdentifiers := by
  induction us generalizing g with
  | nil => rfl
  | cons u us ih =>
      rw [applyUpdates, List.foldl_cons, ← applyUpdates, ih, tainted_applyUpdate]

theorem nodup_ident_filter_map_op (g : GatewayState) (p : Entity → Bool)
    (op : Entity → Update) (hop : ∀ e, (op e).identifier = e.identifier) :
    ((((linkEntities g).filter p).map op).map Update.identifier).Nodup := by
  rw [List.map_map]
  have hco : (Update.identifier ∘ op) = Entity.identifier := funext hop
  rw [hco]
  exact (nodup_identifiers_linkEntities g).sublist ((List.filter_sublist _).map _)

theorem nodup_ident_processService (g : GatewayState) :
    ((processService g).map Update.identifier).Nodup := by
  have h1 : List.Sublist (processService g) ((linkEntities g).map Entity.process) :=
    List.filter_sublist _
  have h2 := h1.map Update.identifier
  rw [List.map_map] at h2
  have hco : (Update.identifier ∘ Entity.process) = Entity.identifier :=
    funext process_identifier
  rw [hco] at h2
  exact (nodup_identifiers_linkEntities g).sublist h2

theorem updateEffect_op_eq_opEffect {g : GatewayState} {i : Identifier} {e : Entity}
    (op : Entity → Update)
    (hshift : ∀ i j s pr t, op ⟨i, s, pr, t⟩ =
      ⟨i, (op ⟨j, s, pr, t⟩).transition, (op ⟨j, s, pr, t⟩).commands⟩)
    (hc : createEntity g i = some e) :
    updateEffect (op e) (config g i) = opEffect op (config g i) := by
  obtain ⟨hs, he⟩ := createEntity_elim hc
  unfold opEffect
  rw [hs]
  obtain ⟨ei, es, ep, et⟩ := e
  injection he with h1 h2 h3 h4
  subst h1
  subst h3
  subst h4
  apply updateEffect_congr
  rw [hshift ei 0]

theorem config_service_some (g : GatewayState) (p : Entity → Bool)
    (op : Entity → Update) (hop : ∀ e, (op e).identifier = e.identifier)
    {i : Identifier} {e : Entity} (hc : createEntity g i = some e) :
    config (applyUpdates g (((linkEntities g).filter p).map op)) i =
      if p e then updateEffect (op e) (config g i) else config g i := by
  by_cases hp : p e
  · have he : e ∈ linkEntities g := by
      rw [mem_linkEntities, createEntity_identifier hc]
      exact hc
    have hmem : op e ∈ ((linkEntities g).filter p).map op :=
      List.mem_map_of_mem op (List.mem_filter.mpr ⟨he, hp⟩)
    have hid : (op e).identifier = i := by
      rw [hop e, createEntity_identifier hc]
    rw [config_applyUpdates_mem g _ i (nodup_ident_filter_map_op g p op hop)
      (op e) hmem hid]
    rw [if_pos hp]
  · rw [if_neg hp]
    apply config_applyUpdates_not_mem
    intro u hu hui
    obtain ⟨e', he', hue⟩ := List.mem_map.mp hu
    obtain ⟨he'l, hpe'⟩ := List.mem_filter.mp he'
    rw [← hue, hop e'] at hui
    have hce' : createEntity g i = some e' := by
      rw [← hui]
      exact mem_linkEntities.mp he'l
    rw [hc] at hce'
    cases hce'
    exact hp hpe'

theorem config_service_none (g : GatewayState) (p : Entity → Bool)
    (op : Entity → Update) (hop : ∀ e, (op e).identifier = e.identifier)
    {i : Identifier} (hc : createEntity g i = none) :
    config (applyUpdates g (((linkEntities g).filter p).map op)) i =
      config g i := by
  apply config_applyUpdates_not_mem
  intro u hu hui
  obtain ⟨e', he', hue⟩ := List.mem_map.mp hu
  obtain ⟨he'l, _⟩ := List.mem_filter.mp he'
  rw [← hue, hop e'] at hui
  have hce' : createEntity g i = some e' := by
    rw [← hui]
    exact mem_linkEntities.mp he'l
  rw [hc] at hce'
  cases hce'

theorem stateOfConfig_none_of_createEntity_none {g : GatewayState} {i : Identifier}
    (hc : createEntity g i = none) : stateOfConfig (config g i) = none := by
  unfold createEntity entityOfConfig at hc
  cases hs : stateOfConfig (config g i) with
  | none => rfl
  | some s => rw [hs] at hc; cases hc

theorem opEffect_of_stateOfConfig_none {c : Config} (op : Entity → Update)
    (h : stateOfConfig c = none) : opEffect op c = c := by
  unfold opEffect
  rw [h]

theorem config_pullService (g : GatewayState) (R : Finset Identifier)
    (i : Identifier) :
    config (applyUpdates g (pullService g R)) i =
      if i ∈ R then opEffect pullOp (config g i) else config g i := by
  cases hc : createEntity g i with
  | some e =>
      have hei := createEntity_identifier hc
      rw [show pullService g R =
        ((linkEntities g).filter fun e => decide (e.identifier ∈ R)).map pullOp
        from rfl]
      rw [config_service_some g _ pullOp pullOp_identifier hc]
      by_cases hiR : i ∈ R
      · rw [if_pos (by rw [hei]; exact decide_eq_true hiR), if_pos hiR]
        exact updateEffect_op_eq_opEffect pullOp pullOp_shift hc
      · rw [if_neg (by rw [hei]; simpa using hiR), if_neg hiR]
  | none =>
      rw [show pullService g R =
        ((linkEntities g).filter fun e => decide (e.identifier ∈ R)).map pullOp
        from rfl]
      rw [config_service_none g _ pullOp pullOp_identifier hc]
      rw [opEffect_of_stateOfConfig_none pullOp
        (stateOfConfig_none_of_createEntity_none hc)]
      split <;> rfl

theorem config_deleteService (g : GatewayState) (R : Finset Identifier)
    (i : Identifier) :
    config (applyUpdates g (deleteService g R)) i =
      if i ∈ R then opEffect deleteOp (config g i) else config g i := by
  cases hc : createEntity g i with
  | some e =>
      have hei := createEntity_identifier hc
      rw [show deleteService g R =
        ((linkEntities g).filter fun e => decide (e.identifier ∈ R)).map deleteOp
        from rfl]
      rw [config_service_some g _ deleteOp deleteOp_identifier hc]
      by_cases hiR : i ∈ R
      · rw [if_pos (by rw [hei]; exact decide_eq_true hiR), if_pos hiR]
        exact updateEffect_op_eq_opEffect deleteOp deleteOp_shift hc
      · rw [if_neg (by rw [hei]; simpa using hiR), if_neg hiR]
  | none =>
      rw [show deleteService g R =
        ((linkEntities g).filter fun e => decide (e.identifier ∈ R)).map deleteOp
        from rfl]
      rw [config_service_none g _ deleteOp deleteOp_identifier hc]
      rw [opEffect_of_stateOfConfig_none deleteOp
        (stateOfConfig_none_of_createEntity_none hc)]
      split <;> rfl

theorem process_not_changing_commands {e : Entity}
    (h : (Entity.process e).is_state_changing = false) :
    (Entity.process e).commands = ∅ := by
  obtain ⟨i, s, p, t⟩ := e
  cases s <;> cases t <;> rcases p with _ | q <;>
    first
      | rfl
      | (cases q <;> first | rfl | exact Bool.noConfusion h)

theorem updateEffect_empty_commands {u : Update} (h : u.commands = ∅)
    (c : Config) : updateEffect u c = c := by
  unfold updateEffect
  rw [h]
  rfl

theorem config_processService (g : GatewayState) (i : Identifier) :
    config (applyUpdates g (processService g)) i =
      opEffect Entity.process (config g i) := by
  cases hc : createEntity g i with
  | some e =>
      by_cases hq : (Entity.process e).is_state_changing = true
      · have he : e ∈ linkEntities g := by
          rw [mem_linkEntities, createEntity_identifier hc]
          exact hc
        have hmem : Entity.process e ∈ processService g :=
          List.mem_filter.mpr ⟨List.mem_map_of_mem Entity.process he, hq⟩
        have hid : (Entity.process e).identifier = i := by
          rw [process_identifier, createEntity_identifier hc]
        rw [config_applyUpdates_mem g _ i (nodup_ident_processService g)
          (Entity.process e) hmem hid]
        exact updateEffect_op_eq_opEffect Entity.process process_shift hc
      · have hqf : (Entity.process e).is_state_changing = false := by
          revert hq
          cases (Entity.process e).is_state_changing <;> simp
        rw [config_applyUpdates_not_mem]
        · rw [← updateEffect_op_eq_opEffect Entity.process process_shift hc]
          rw [updateEffect_empty_commands (process_not_changing_commands hqf)]
        · intro u hu hui
          obtain ⟨hm, hsc⟩ := List.mem_filter.mp hu
          obtain ⟨e', he', hue⟩ := List.mem_map.mp hm
          rw [← hue, process_identifier] at hui
          have hce' : createEntity g i = some e' := by
            rw [← hui]
            exact mem_linkEntities.mp he'
          rw [hc] at hce'
          cases hce'
          rw [← hue] at hsc
          exact hq hsc
  | none =>
      have hnone := stateOfConfig_none_of_createEntity_none hc
      rw [config_applyUpdates_not_mem]
      · unfold opEffect
        rw [hnone]
      · intro u hu hui
        obtain ⟨hm, _⟩ := List.mem_filter.mp hu
        obtain ⟨e', he', hue⟩ := List.mem_map.mp hm
        rw [← hue, process_identifier] at hui
        have hce' : createEntity g i = some e' := by
          rw [← hui]
          exact mem_linkEntities.mp he'
        rw [hc] at hce'
        cases hce'

/-- Well-formedness of a gateway state: every identifier recorded
anywhere has a valid configuration (it classifies to a state and has at
most one active process); such states are exactly the snapshots from
which a link can be derived. -/
def WF (g : GatewayState) : Prop :=
  ∀ i ∈ g.allIdentifiers, validConfig (config g i)

instance : DecidablePred WF := fun g => by
  unfold WF; infer_instance

theorem config_empty_of_not_mem {g : GatewayState} {i : Identifier}
    (h : i ∉ g.allIdentifiers) : config g i = emptyConfig := by
  unfold GatewayState.allIdentifiers at h
  simp only [Finset.mem_union, not_or] at h
  obtain ⟨⟨⟨⟨⟨hs, ho⟩, hl⟩, ht⟩, hp⟩, hd⟩ := h
  unfold config emptyConfig
  simp [hs, ho, hl, ht, hp, hd]

theorem config_ne_empty_of_mem {g : GatewayState} {i : Identifier}
    (h : i ∈ g.allIdentifiers) : config g i ≠ emptyConfig := by
  intro hee
  simp only [config, emptyConfig, Config.mk.injEq,
    decide_eq_false_iff_not] at hee
  obtain ⟨hs, ho, hl, ht, hp, hd⟩ := hee
  unfold GatewayState.allIdentifiers at h
  simp only [Finset.mem_union] at h
  rcases h with ((((h | h) | h) | h) | h) | h
  · exact hs h
  · exact ho h
  · exact hl h
  · exact ht h
  · exact hp h
  · exact hd h

theorem WF_ok {g : GatewayState} (hg : WF g) (i : Identifier) :
    okConfig (config g i) := by
  by_cases h : i ∈ g.allIdentifiers
  · exact Or.inl (hg i h)
  · exact Or.inr (config_empty_of_not_mem h)

theorem WF_of_pointwise {g : GatewayState}
    (h : ∀ i, okConfig (config g i)) : WF g := by
  intro i hi
  rcases h i with hv | he
  · exact hv
  · exact absurd he (config_ne_empty_of_mem hi)

theorem okConfig_opEffect_pullOp :
    ∀ c : Config, okConfig c → okConfig (opEffect pullOp c) := by
  decide

theorem okConfig_opEffect_deleteOp :
    ∀ c : Config, okConfig c → okConfig (opEffect deleteOp c) := by
  decide

theorem okConfig_opEffect_process :
    ∀ c : Config, okConfig c → okConfig (opEffect Entity.process c) := by
  decide

theorem WF_applyPullService {g : GatewayState} (R : Finset Identifier)
    (hg : WF g) : WF (applyUpdates g (pullService g R)) := by
  apply WF_of_pointwise
  intro i
  rw [config_pullService]
  by_cases hiR : i ∈ R
  · rw [if_pos hiR]
    exact okConfig_opEffect_pullOp _ (WF_ok hg i)
  · rw [if_neg hiR]
    exact WF_ok hg i

theorem WF_applyDeleteService {g : GatewayState} (R : Finset Identifier)
    (hg : WF g) : WF (applyUpdates g (deleteService g R)) := by
  apply WF_of_pointwise
  intro i
  rw [config_deleteService]
  by_cases hiR : i ∈ R
  · rw [if_pos hiR]
    exact okConfig_opEffect_deleteOp _ (WF_ok hg i)
  · rw [if_neg hiR]
    exact WF_ok hg i

theorem WF_applyProcessService {g : GatewayState} (hg : WF g) :
    WF (applyUpdates g (processService g)) := by
  apply WF_of_pointwise
  intro i
  rw [config_processService]
  exact okConfig_opEffect_process _ (WF_ok hg i)

/-- One applied batch of the gateway: the updates of the pull, delete or
process domain service computed on the current snapshot (the loop bodies
of `pull` and `delete` in `dj_link/use_cases/use_cases.py`). -/
inductive LinkStep : GatewayState → GatewayState → Prop where
  | pullBatch (g : GatewayState) (R : Finset Identifier) :
      LinkStep g (applyUpdates g (pullService g R))
  | deleteBatch (g : GatewayState) (R : Finset Identifier) :
      LinkStep g (applyUpdates g (deleteService g R))
  | processBatch (g : GatewayState) :
      LinkStep g (applyUpdates g (processService g))

/-- Any sequence of applied pull, delete and process batches. -/
def LinkReach : GatewayState → GatewayState → Prop :=
  Relation.ReflTransGen LinkStep

/-- One applied batch of the gateway restricted to the PULL and PROCESS
operations (for taint monotonicity). -/
inductive PullProcessStep : GatewayState → GatewayState → Prop where
  | pullBatch (g : GatewayState) (R : Finset Identifier) :
      PullProcessStep g (applyUpdates g (pullService g R))
  | processBatch (g : GatewayState) :
      PullProcessStep g (applyUpdates g (processService g))

/-- Any sequence of applied PULL and PROCESS batches. -/
def PullProcessReach : GatewayState → GatewayState → Prop :=
  Relation.ReflTransGen PullProcessStep

theorem WF_linkStep {g g' : GatewayState} (h : LinkStep g g') (hg : WF g) :
    WF g' := by
  cases h with
  | pullBatch R => exact WF_applyPullService R hg
  | deleteBatch R => exact WF_applyDeleteService R hg
  | processBatch => exact WF_applyProcessService hg

theorem WF_linkReach {g g' : GatewayState} (h : LinkReach g g') (hg : WF g) :
    WF g' := by
  induction h with
  | refl => exact hg
  | tail _ hstep ih => exact WF_linkStep hstep ih

theorem WF_pullProcessStep {g g' : GatewayState} (h : PullProcessStep g g')
    (hg : WF g) : WF g' := by
  cases h with
  | pullBatch R => exact WF_applyPullService R hg
  | processBatch => exact WF_applyProcessService hg

theorem WF_pullProcessReach {g g' : GatewayState}
    (h : PullProcessReach g g') (hg : WF g) : WF g' := by
  induction h with
  | refl => exact hg
  | tail _ hstep ih => exact WF_pullProcessStep hstep ih

theorem tainted_linkStep {g g' : GatewayState} (h : PullProcessStep g g') :
    g'.taintedIdentifiers = g.taintedIdentifiers := by
  cases h with
  | pullBatch R => exact tainted_applyUpdates g _
  | processBatch => exact tainted_applyUpdates g _

theorem tainted_pullProcessReach {g g' : GatewayState}
    (h : PullProcessReach g g') :
    g'.taintedIdentifiers = g.taintedIdentifiers := by
  induction h with
  | refl => rfl
  | tail _ hstep ih => rw [tainted_linkStep hstep, ih]

theorem local_subset_allIdentifiers (g : GatewayState) :
    g.localAssignment ⊆ g.allIdentifiers := by
  intro i hi
  unfold GatewayState.allIdentifiers
  simp [hi]

theorem outbound_subset_allIdentifiers (g : GatewayState) :
    g.outboundAssignment ⊆ g.allIdentifiers := by
  intro i hi
  unfold GatewayState.allIdentifiers
  simp [hi]

theorem tainted_subset_allIdentifiers (g : GatewayState) :
    g.taintedIdentifiers ⊆ g.allIdentifiers := by
  intro i hi
  unfold GatewayState.allIdentifiers
  simp [hi]

theorem validConfig_inLocal_inOutbound :
    ∀ c : Config, validConfig c → c.inLocal = true → c.inOutbound = true := by
  decide

theorem validConfig_inOutbound_inSource :
    ∀ c : Config, validConfig c → c.inOutbound = true → c.inSource = true := by
  decide

theorem WF_local_subset {g : GatewayState} (hg : WF g) :
    g.localAssignment ⊆ g.outboundAssignment := by
  intro i hi
  have hv := hg i (local_subset_allIdentifiers g hi)
  have hb := validConfig_inLocal_inOutbound _ hv (decide_eq_true hi)
  exact of_decide_eq_true hb

theorem WF_outbound_subset {g : GatewayState} (hg : WF g) :
    g.outboundAssignment ⊆ g.sourceAssignment := by
  intro i hi
  have hv := hg i (outbound_subset_allIdentifiers g hi)
  have hb := validConfig_inOutbound_inSource _ hv (decide_eq_true hi)
  exact of_decide_eq_true hb

/-- Claim C1: for every sequence of pull, delete and process update
batches applied by the gateway to any initial assignment from which a
link can be derived, after every applied batch the component sets
satisfy `LOCAL ⊆ OUTBOUND ⊆ SOURCE` as sets of identifiers. -/
theorem C1_local_subset_outbound_subset_source (g g' : GatewayState)
    (hg : WF g) (hr : LinkReach g g') :
    g'.localAssignment ⊆ g'.outboundAssignment ∧
      g'.outboundAssignment ⊆ g'.sourceAssignment := by
  have hg' := WF_linkReach hr hg
  exact ⟨WF_local_subset hg', WF_outbound_subset hg'⟩

/-- A concrete gateway state with one pulled entity and one idle entity,
used to instantiate hypotheses of the general theorems. -/
def exampleGateway : GatewayState :=
  ⟨{1, 2}, {1}, {1}, ∅, ∅, ∅⟩

theorem C1_witness :
    WF exampleGateway ∧
      ((applyUpdates exampleGateway (pullService exampleGateway {2})).localAssignment ⊆
          (applyUpdates exampleGateway (pullService exampleGateway {2})).outboundAssignment ∧
        (applyUpdates exampleGateway (pullService exampleGateway {2})).outboundAssignment ⊆
          (applyUpdates exampleGateway (pullService exampleGateway {2})).sourceAssignment) :=
  ⟨by decide,
    C1_local_subset_outbound_subset_source exampleGateway _ (by decide)
      (Relation.ReflTransGen.single (LinkStep.pullBatch exampleGateway {2}))⟩

/-- Whether the per-entity operation `op` yields no state-changing
update on an identifier with configuration `c` (vacuously true when the
configuration is unclassifiable). -/
def opQuiescent (op : Entity → Update) (c : Config) : Bool :=
  ((entityOfConfig 0 c).map fun e => !(op e).is_state_changing).getD true

theorem opQuiescent_of_some {g : GatewayState} {i : Identifier} {e : Entity}
    (op : Entity → Update)
    (hshift : ∀ i j s pr t, op ⟨i, s, pr, t⟩ =
      ⟨i, (op ⟨j, s, pr, t⟩).transition, (op ⟨j, s, pr, t⟩).commands⟩)
    (hc : createEntity g i = some e) :
    opQuiescent op (config g i) = !(op e).is_state_changing := by
  obtain ⟨hs, he⟩ := createEntity_elim hc
  obtain ⟨ei, es, ep, et⟩ := e
  injection he with h1 h2 h3 h4
  subst h1
  subst h3
  subst h4
  have hec : entityOfConfig 0 (config g ei) =
      some ⟨0, es, procOfConfig (config g ei), (config g ei).isTainted⟩ := by
    unfold entityOfConfig
    rw [hs]
    rfl
  unfold opQuiescent
  rw [hec, Option.map_some', Option.getD_some]
  rw [hshift 0 ei]
  rfl

theorem opQuiescent_of_none {g : GatewayState} {i : Identifier}
    (op : Entity → Update) (hc : createEntity g i = none) :
    opQuiescent op (config g i) = true := by
  have hs := stateOfConfig_none_of_createEntity_none hc
  have hec : entityOfConfig 0 (config g i) = none := by
    unfold entityOfConfig
    rw [hs]
    rfl
  unfold opQuiescent
  rw [hec]
  rfl

theorem processService_eq_nil {g : GatewayState}
    (h : ∀ j, opQuiescent Entity.process (config g j) = true) :
    processService g = [] := by
  apply List.eq_nil_iff_forall_not_mem.mpr
  intro u hu
  obtain ⟨hm, hsc⟩ := List.mem_filter.mp hu
  obtain ⟨e, he, hue⟩ := List.mem_map.mp hm
  have hc : createEntity g e.identifier = some e := mem_linkEntities.mp he
  have hq := h e.identifier
  rw [opQuiescent_of_some Entity.process process_shift hc] at hq
  rw [hue] at hq
  rw [hsc] at hq
  cases hq

theorem processService_any_of_ne_nil {g : GatewayState}
    (h : processService g ≠ []) :
    (processService g).any Update.is_state_changing = true := by
  cases hp : processService g with
  | nil => exact absurd hp h
  | cons u rest =>
      have hu : u ∈ processService g := by
        rw [hp]
        exact List.mem_cons_self u rest
      have hone := (List.mem_filter.mp hu).2
      simp [List.any_cons, hone]

/-- The fixed-point drain loop of the use cases, translated from `pull`
and `delete` in `dj_link/use_cases/use_cases.py`: while any update is
state-changing, apply the batch and recompute the process updates from a
fresh snapshot.  The loop is fuelled; any fuel of at least four reaches
the fixed point. -/
def drainLoop : Nat → GatewayState → List Update → GatewayState
  | 0, g, _ => g
  | fuel + 1, g, updates =>
      if updates.any Update.is_state_changing then
        drainLoop fuel (applyUpdates g updates)
          (processService (applyUpdates g updates))
      else g

/-- Applying one full process batch (`gateway.apply(process(link))`). -/
def processStepG (g : GatewayState) : GatewayState :=
  applyUpdates g (processService g)

/-- The PULL use case (`pull` in `dj_link/use_cases/use_cases.py`):
compute the pull-service updates, then drain via process batches. -/
def pullUseCase (fuel : Nat) (g : GatewayState) (R : Finset Identifier) :
    GatewayState :=
  drainLoop fuel g (pullService g R)

/-- The DELETE use case (`delete` in `dj_link/use_cases/use_cases.py`). -/
def deleteUseCase (fuel : Nat) (g : GatewayState) (R : Finset Identifier) :
    GatewayState :=
  drainLoop fuel g (deleteService g R)

theorem config_processStepG (g : GatewayState) (j : Identifier) :
    config (processStepG g) j = opEffect Entity.process (config g j) :=
  config_processService g j

theorem drainLoop_no_change (fuel : Nat) (g : GatewayState) (us : List Update)
    (h : us.any Update.is_state_changing = false) : drainLoop fuel g us = g := by
  cases fuel with
  | zero => rfl
  | succ fuel => simp [drainLoop, h]

theorem drainLoop_step (fuel : Nat) (g : GatewayState) (us : List Update)
    (h : us.any Update.is_state_changing = true) :
    drainLoop (fuel + 1) g us =
      drainLoop fuel (applyUpdates g us) (processService (applyUpdates g us)) := by
  simp [drainLoop, h]

theorem drainLoop_step_ps (fuel : Nat) (g : GatewayState)
    (h : (processService g).any Update.is_state_changing = true) :
    drainLoop (fuel + 1) g (processService g) =
      drainLoop fuel (processStepG g) (processService (processStepG g)) :=
  drainLoop_step fuel g (processService g) h

theorem drainLoop_process_phase (k : Nat) (g : GatewayState)
    (h2 : processService (processStepG (processStepG g)) = []) :
    drainLoop (k + 3) g (processService g) = processStepG (processStepG g) := by
  by_cases hp0 : processService g = []
  · rw [hp0, drainLoop_no_change _ _ [] rfl]
    have e1 : processStepG g = g := by
      show applyUpdates g (processService g) = g
      rw [hp0]
      rfl
    rw [e1, e1]
  · rw [drainLoop_step_ps _ _ (processService_any_of_ne_nil hp0)]
    by_cases hp1 : processService (processStepG g) = []
    · rw [hp1, drainLoop_no_change _ _ [] rfl]
      have e2 : processStepG (processStepG g) = processStepG g := by
        show applyUpdates (processStepG g) (processService (processStepG g)) =
          processStepG g
        rw [hp1]
        rfl
      rw [e2]
    · rw [drainLoop_step_ps _ _ (processService_any_of_ne_nil hp1), h2,
        drainLoop_no_change _ _ [] rfl]

theorem process_quiescent_after_two :
    ∀ c : Config, okConfig c →
      opQuiescent Entity.process
        (opEffect Entity.process (opEffect Entity.process c)) = true := by
  decide

theorem process_quiescent_after_pull_two :
    ∀ c : Config, okConfig c →
      opQuiescent Entity.process
        (opEffect Entity.process
          (opEffect Entity.process (opEffect pullOp c))) = true := by
  decide

theorem process_quiescent_after_delete_two :
    ∀ c : Config, okConfig c →
      opQuiescent Entity.process
        (opEffect Entity.process
          (opEffect Entity.process (opEffect deleteOp c))) = true := by
  decide

theorem pullUseCase_run (g : GatewayState) (R : Finset Identifier) (k : Nat)
    (hg : WF g)
    (hch : (pullService g R).any Update.is_state_changing = true) :
    pullUseCase (k + 4) g R =
      processStepG (processStepG (applyUpdates g (pullService g R))) := by
  unfold pullUseCase
  rw [drainLoop_step _ _ _ hch]
  apply drainLoop_process_phase
  apply processService_eq_nil
  intro j
  rw [config_processStepG, config_processStepG, config_pullService]
  by_cases hjR : j ∈ R
  · rw [if_pos hjR]
    exact process_quiescent_after_pull_two _ (WF_ok hg j)
  · rw [if_neg hjR]
    exact process_quiescent_after_two _ (WF_ok hg j)

theorem deleteUseCase_run (g : GatewayState) (R : Finset Identifier) (k : Nat)
    (hg : WF g)
    (hch : (deleteService g R).any Update.is_state_changing = true) :
    deleteUseCase (k + 4) g R =
      processStepG (processStepG (applyUpdates g (deleteService g R))) := by
  unfold deleteUseCase
  rw [drainLoop_step _ _ _ hch]
  apply drainLoop_process_phase
  apply processService_eq_nil
  intro j
  rw [config_processStepG, config_processStepG, config_deleteService]
  by_cases hjR : j ∈ R
  · rw [if_pos hjR]
    exact process_quiescent_after_delete_two _ (WF_ok hg j)
  · rw [if_neg hjR]
    exact process_quiescent_after_two _ (WF_ok hg j)

theorem config_pullUseCase_run (g : GatewayState) (R : Finset Identifier)
    (k : Nat) (j : Identifier) (hg : WF g)
    (hch : (pullService g R).any Update.is_state_changing = true) :
    config (pullUseCase (k + 4) g R) j =
      opEffect Entity.process (opEffect Entity.process
        (if j ∈ R then opEffect pullOp (config g j) else config g j)) := by
  rw [pullUseCase_run g R k hg hch]
  rw [config_processStepG, config_processStepG, config_pullService]

theorem config_deleteUseCase_run (g : GatewayState) (R : Finset Identifier)
    (k : Nat) (j : Identifier) (hg : WF g)
    (hch : (deleteService g R).any Update.is_state_changing = true) :
    config (deleteUseCase (k + 4) g R) j =
      opEffect Entity.process (opEffect Entity.process
        (if j ∈ R then opEffect deleteOp (config g j) else config g j)) := by
  rw [deleteUseCase_run g R k hg hch]
  rw [config_processStepG, config_processStepG, config_deleteService]

theorem WF_pullUseCase_run (g : GatewayState) (R : Finset Identifier) (k : Nat)
    (hg : WF g)
    (hch : (pullService g R).any Update.is_state_changing = true) :
    WF (pullUseCase (k + 4) g R) := by
  rw [pullUseCase_run g R k hg hch]
  exact WF_applyProcessService (WF_applyProcessService (WF_applyPullService R hg))

/-- Claim C2: for every entity with an active process, `process()`
returns exactly the update of the transition table (`Activated`/`PULL`
goes to `Received` with `ADD_TO_LOCAL` when untainted and to `Deprecated`
with `DEPRECATE` when tainted; `Activated`/`DELETE` goes to `Idle` with
`FINISH_DELETE_PROCESS` when untainted and to `Deprecated` with
`DEPRECATE` when tainted; `Received`/`PULL` goes to `Pulled` or `Tainted`
by taint, both with `FINISH_PULL_PROCESS`; `Received`/`DELETE` goes to
`Activated` with `REMOVE_FROM_LOCAL` regardless of taint), and in every
other state (or without an active process) `process()` returns an empty
update. -/
theorem C2_process_transition_table :
    ∀ (i : Identifier) (t : Bool) (p : Option Processes),
      Entity.process ⟨i, .Activated, some .PULL, false⟩ =
        ⟨i, some ⟨.Activated, .Received⟩, {.ADD_TO_LOCAL}⟩ ∧
      Entity.process ⟨i, .Activated, some .PULL, true⟩ =
        ⟨i, some ⟨.Activated, .Deprecated⟩, {.DEPRECATE}⟩ ∧
      Entity.process ⟨i, .Activated, some .DELETE, false⟩ =
        ⟨i, some ⟨.Activated, .Idle⟩, {.FINISH_DELETE_PROCESS}⟩ ∧
      Entity.process ⟨i, .Activated, some .DELETE, true⟩ =
        ⟨i, some ⟨.Activated, .Deprecated⟩, {.DEPRECATE}⟩ ∧
      Entity.process ⟨i, .Received, some .PULL, false⟩ =
        ⟨i, some ⟨.Received, .Pulled⟩, {.FINISH_PULL_PROCESS}⟩ ∧
      Entity.process ⟨i, .Received, some .PULL, true⟩ =
        ⟨i, some ⟨.Received, .Tainted⟩, {.FINISH_PULL_PROCESS}⟩ ∧
      Entity.process ⟨i, .Received, some .DELETE, t⟩ =
        ⟨i, some ⟨.Received, .Activated⟩, {.REMOVE_FROM_LOCAL}⟩ ∧
      Entity.process ⟨i, .Idle, p, t⟩ = emptyUpdate i ∧
      Entity.process ⟨i, .Pulled, p, t⟩ = emptyUpdate i ∧
      Entity.process ⟨i, .Tainted, p, t⟩ = emptyUpdate i ∧
      Entity.process ⟨i, .Deprecated, p, t⟩ = emptyUpdate i ∧
      Entity.process ⟨i, .Activated, none, t⟩ = emptyUpdate i ∧
      Entity.process ⟨i, .Received, none, t⟩ = emptyUpdate i := by
  intro i t p
  rcases p with _ | q
  · cases t <;>
      exact ⟨rfl, rfl, rfl, rfl, rfl, rfl, rfl, rfl, rfl, rfl, rfl, rfl, rfl⟩
  · cases q <;> cases t <;>
      exact ⟨rfl, rfl, rfl, rfl, rfl, rfl, rfl, rfl, rfl, rfl, rfl, rfl, rfl⟩

/-- Claim C3: `pull()` yields `Idle → Activated` with command set
containing `START_PULL_PROCESS` and an empty update in every other
state; `delete()` yields `Pulled → Received` and `Tainted → Received`
with `START_DELETE_PROCESS` and an empty update in every other state. -/
theorem C3_pull_delete_transition_tables :
    ∀ (i : Identifier) (t : Bool) (p : Option Processes),
      Entity.pull ⟨i, .Idle, p, t⟩ =
        ⟨i, some ⟨.Idle, .Activated⟩, {.START_PULL_PROCESS}⟩ ∧
      Entity.pull ⟨i, .Activated, p, t⟩ = emptyUpdate i ∧
      Entity.pull ⟨i, .Received, p, t⟩ = emptyUpdate i ∧
      Entity.pull ⟨i, .Pulled, p, t⟩ = emptyUpdate i ∧
      Entity.pull ⟨i, .Tainted, p, t⟩ = emptyUpdate i ∧
      Entity.pull ⟨i, .Deprecated, p, t⟩ = emptyUpdate i ∧
      Entity.delete ⟨i, .Pulled, p, t⟩ =
        ⟨i, some ⟨.Pulled, .Received⟩, {.START_DELETE_PROCESS}⟩ ∧
      Entity.delete ⟨i, .Tainted, p, t⟩ =
        ⟨i, some ⟨.Tainted, .Received⟩, {.START_DELETE_PROCESS}⟩ ∧
      Entity.delete ⟨i, .Idle, p, t⟩ = emptyUpdate i ∧
      Entity.delete ⟨i, .Activated, p, t⟩ = emptyUpdate i ∧
      Entity.delete ⟨i, .Received, p, t⟩ = emptyUpdate i ∧
      Entity.delete ⟨i, .Deprecated, p, t⟩ = emptyUpdate i :=
  fun i t p =>
    ⟨rfl, rfl, rfl, rfl, rfl, rfl, rfl, rfl, rfl, rfl, rfl, rfl⟩

/-- Claim C4: the `Deprecated` state is terminal — each of `pull()`,
`delete()` and `process()` returns an empty update on a `Deprecated`
entity, and applying any of those (empty) updates leaves the gateway
state unchanged, so no operation transitions the entity out of
`Deprecated`. -/
theorem C4_deprecated_terminal :
    ∀ (i : Identifier) (t : Bool) (p : Option Processes) (g : GatewayState),
      Entity.pull ⟨i, .Deprecated, p, t⟩ = emptyUpdate i ∧
      Entity.delete ⟨i, .Deprecated, p, t⟩ = emptyUpdate i ∧
      Entity.process ⟨i, .Deprecated, p, t⟩ = emptyUpdate i ∧
      applyUpdate g (Entity.pull ⟨i, .Deprecated, p, t⟩) = g ∧
      applyUpdate g (Entity.delete ⟨i, .Deprecated, p, t⟩) = g ∧
      applyUpdate g (Entity.process ⟨i, .Deprecated, p, t⟩) = g := by
  intro i t p g
  rcases p with _ | q
  · cases t <;> exact ⟨rfl, rfl, rfl, rfl, rfl, rfl⟩
  · cases q <;> cases t <;> exact ⟨rfl, rfl, rfl, rfl, rfl, rfl⟩

theorem tainted_valid_not_pulled_idle :
    ∀ c : Config, validConfig c → c.isTainted = true →
      stateOfConfig c ≠ some .Pulled ∧ stateOfConfig c ≠ some .Idle := by
  decide

theorem tainted_valid_quiescent_terminal :
    ∀ c : Config, validConfig c → c.isTainted = true →
      opQuiescent pullOp c = true → opQuiescent Entity.process c = true →
      stateOfConfig c = some .Tainted ∨ stateOfConfig c = some .Deprecated := by
  decide

/-- Claim C5: taint monotonicity — when an identifier is tainted in the
outbound ledger, no sequence of applied PULL or PROCESS batches can leave
it in state `Pulled` or `Idle`, and whenever such a sequence is driven to
quiescence for that identifier (its pull and process updates are no
longer state-changing) it ends in `Tainted` or `Deprecated`. -/
theorem C5_taint_monotonicity (g g' : GatewayState) (i : Identifier)
    (hg : WF g) (ht : i ∈ g.taintedIdentifiers)
    (hr : PullProcessReach g g') :
    (stateOfConfig (config g' i) ≠ some .Pulled ∧
      stateOfConfig (config g' i) ≠ some .Idle) ∧
    (opQuiescent pullOp (config g' i) = true →
      opQuiescent Entity.process (config g' i) = true →
      stateOfConfig (config g' i) = some .Tainted ∨
        stateOfConfig (config g' i) = some .Deprecated) := by
  have hg' := WF_pullProcessReach hr hg
  have ht' : i ∈ g'.taintedIdentifiers := by
    rw [tainted_pullProcessReach hr]
    exact ht
  have hv : validConfig (config g' i) :=
    hg' i (tainted_subset_allIdentifiers g' ht')
  have htb : (config g' i).isTainted = true := decide_eq_true ht'
  exact ⟨tainted_valid_not_pulled_idle _ hv htb,
    fun h1 h2 => tainted_valid_quiescent_terminal _ hv htb h1 h2⟩

/-- A concrete gateway state holding one entity in state `Tainted`. -/
def taintedGateway : GatewayState :=
  ⟨{1}, {1}, {1}, {1}, ∅, ∅⟩

theorem C5_witness :
    WF taintedGateway ∧ 1 ∈ taintedGateway.taintedIdentifiers ∧
      ((stateOfConfig (config taintedGateway 1) ≠ some .Pulled ∧
          stateOfConfig (config taintedGateway 1) ≠ some .Idle) ∧
        (opQuiescent pullOp (config taintedGateway 1) = true →
          opQuiescent Entity.process (config taintedGateway 1) = true →
          stateOfConfig (config taintedGateway 1) = some .Tainted ∨
            stateOfConfig (config taintedGateway 1) = some .Deprecated)) :=
  ⟨by decide, by decide,
    C5_taint_monotonicity taintedGateway taintedGateway 1 (by decide) (by decide)
      Relation.ReflTransGen.refl⟩

theorem pullService_any_changing (g : GatewayState) (R : Finset Identifier)
    (i : Identifier) (hiR : i ∈ R) (e : Entity)
    (hc : createEntity g i = some e)
    (hch : (pullOp e).is_state_changing = true) :
    (pullService g R).any Update.is_state_changing = true := by
  apply List.any_eq_true.mpr
  refine ⟨pullOp e, ?_, hch⟩
  apply List.mem_map_of_mem
  apply List.mem_filter.mpr
  constructor
  · rw [mem_linkEntities, createEntity_identifier hc]
    exact hc
  · rw [createEntity_identifier hc]
    exact decide_eq_true hiR

theorem deleteService_any_changing (g : GatewayState) (R : Finset Identifier)
    (i : Identifier) (hiR : i ∈ R) (e : Entity)
    (hc : createEntity g i = some e)
    (hch : (deleteOp e).is_state_changing = true) :
    (deleteService g R).any Update.is_state_changing = true := by
  apply List.any_eq_true.mpr
  refine ⟨deleteOp e, ?_, hch⟩
  apply List.mem_map_of_mem
  apply List.mem_filter.mpr
  constructor
  · rw [mem_linkEntities, createEntity_identifier hc]
    exact hc
  · rw [createEntity_identifier hc]
    exact decide_eq_true hiR

theorem processService_pullUseCase (g : GatewayState) (R : Finset Identifier)
    (k : Nat) (hg : WF g)
    (hch : (pullService g R).any Update.is_state_changing = true) :
    processService (pullUseCase (k + 4) g R) = [] := by
  rw [pullUseCase_run g R k hg hch]
  apply processService_eq_nil
  intro j
  rw [config_processStepG, config_processStepG, config_pullService]
  by_cases hjR : j ∈ R
  · rw [if_pos hjR]
    exact process_quiescent_after_pull_two _ (WF_ok hg j)
  · rw [if_neg hjR]
    exact process_quiescent_after_two _ (WF_ok hg j)

theorem processService_deleteUseCase (g : GatewayState) (R : Finset Identifier)
    (k : Nat) (hg : WF g)
    (hch : (deleteService g R).any Update.is_state_changing = true) :
    processService (deleteUseCase (k + 4) g R) = [] := by
  rw [deleteUseCase_run g R k hg hch]
  apply processService_eq_nil
  intro j
  rw [config_processStepG, config_processStepG, config_deleteService]
  by_cases hjR : j ∈ R
  · rw [if_pos hjR]
    exact process_quiescent_after_delete_two _ (WF_ok hg j)
  · rw [if_neg hjR]
    exact process_quiescent_after_two _ (WF_ok hg j)

theorem WF_deleteUseCase_run (g : GatewayState) (R : Finset Identifier) (k : Nat)
    (hg : WF g)
    (hch : (deleteService g R).any Update.is_state_changing = true) :
    WF (deleteUseCase (k + 4) g R) := by
  rw [deleteUseCase_run g R k hg hch]
  exact WF_applyProcessService (WF_applyProcessService (WF_applyDeleteService R hg))

/-- The configuration of an idle entity: assigned to the source only,
no process, untainted. -/
def idleConfig : Config :=
  ⟨true, false, false, false, false, false⟩

/-- The configuration of a pulled entity: assigned to all three
components, no process, untainted. -/
def pulledConfig : Config :=
  ⟨true, true, true, false, false, false⟩

theorem idle_config_unique :
    ∀ c : Config, stateOfConfig c = some .Idle → c = idleConfig := by
  decide

theorem pull_drive_idle_config :
    opEffect Entity.process (opEffect Entity.process (opEffect pullOp idleConfig)) =
      pulledConfig := by
  decide

theorem delete_drive_pulled_config :
    opEffect Entity.process
        (opEffect Entity.process (opEffect deleteOp pulledConfig)) =
      idleConfig := by
  decide

/-- Claim C7: complementarity — for any identifier whose entity is
`Idle` (hence untainted), running the PULL use case to quiescence and
then the DELETE use case to quiescence returns the identifier to `Idle`
with its assignment reduced to the source component only; both drain
loops reach quiescence with any fuel of at least four. -/
theorem C7_complementarity (g : GatewayState) (i : Identifier) (k1 k2 : Nat)
    (hg : WF g) (hstart : stateOfConfig (config g i) = some .Idle) :
    config (deleteUseCase (k2 + 4) (pullUseCase (k1 + 4) g {i}) {i}) i =
        idleConfig ∧
      stateOfConfig
          (config (deleteUseCase (k2 + 4) (pullUseCase (k1 + 4) g {i}) {i}) i) =
        some .Idle ∧
      processService (pullUseCase (k1 + 4) g {i}) = [] ∧
      processService (deleteUseCase (k2 + 4) (pullUseCase (k1 + 4) g {i}) {i}) =
        [] := by
  have hc0 : config g i = idleConfig := idle_config_unique _ hstart
  have hce : createEntity g i = some ⟨i, .Idle, none, false⟩ := by
    unfold createEntity
    rw [hc0]
    rfl
  have hch1 : (pullService g {i}).any Update.is_state_changing = true :=
    pullService_any_changing g {i} i (Finset.mem_singleton_self i) _ hce rfl
  have hcfg1 : config (pullUseCase (k1 + 4) g {i}) i = pulledConfig := by
    rw [config_pullUseCase_run g {i} k1 i hg hch1,
      if_pos (Finset.mem_singleton_self i), hc0]
    exact pull_drive_idle_config
  have hg1 : WF (pullUseCase (k1 + 4) g {i}) := WF_pullUseCase_run g {i} k1 hg hch1
  have hce1 : createEntity (pullUseCase (k1 + 4) g {i}) i =
      some ⟨i, .Pulled, none, false⟩ := by
    unfold createEntity
    rw [hcfg1]
    rfl
  have hch2 : (deleteService (pullUseCase (k1 + 4) g {i}) {i}).any
      Update.is_state_changing = true :=
    deleteService_any_changing _ {i} i (Finset.mem_singleton_self i) _ hce1 rfl
  have hcfg2 : config (deleteUseCase (k2 + 4) (pullUseCase (k1 + 4) g {i}) {i}) i =
      idleConfig := by
    rw [config_deleteUseCase_run _ {i} k2 i hg1 hch2,
      if_pos (Finset.mem_singleton_self i), hcfg1]
    exact delete_drive_pulled_config
  refine ⟨hcfg2, ?_, ?_, ?_⟩
  · rw [hcfg2]
    rfl
  · exact processService_pullUseCase g {i} k1 hg hch1
  · exact processService_deleteUseCase _ {i} k2 hg1 hch2

/-- A concrete gateway state holding one entity in state `Idle`. -/
def idleGateway : GatewayState :=
  ⟨{1}, ∅, ∅, ∅, ∅, ∅⟩

theorem C7_witness :
    WF idleGateway ∧ stateOfConfig (config idleGateway 1) = some .Idle ∧
      (config (deleteUseCase 4 (pullUseCase 4 idleGateway {1}) {1}) 1 =
          idleConfig ∧
        stateOfConfig
            (config (deleteUseCase 4 (pullUseCase 4 idleGateway {1}) {1}) 1) =
          some .Idle ∧
        processService (pullUseCase 4 idleGateway {1}) = [] ∧
        processService (deleteUseCase 4 (pullUseCase 4 idleGateway {1}) {1}) =
          []) :=
  ⟨by decide, by decide,
    C7_complementarity idleGateway 1 0 0 (by decide) (by decide)⟩

theorem pull_terminal_quiescent :
    ∀ c : Config,
      (stateOfConfig c = some .Pulled ∨ stateOfConfig c = some .Tainted ∨
        stateOfConfig c = some .Deprecated ∨ stateOfConfig c = none) →
      opQuiescent pullOp c = true := by
  decide

theorem delete_terminal_quiescent :
    ∀ c : Config,
      (stateOfConfig c = some .Idle ∨ stateOfConfig c = some .Deprecated ∨
        stateOfConfig c = none) →
      opQuiescent deleteOp c = true := by
  decide

theorem pullService_no_change {g : GatewayState} {R : Finset Identifier}
    (h : ∀ i ∈ R, opQuiescent pullOp (config g i) = true) :
    (pullService g R).any Update.is_state_changing = false := by
  apply List.any_eq_false.mpr
  intro u hu
  obtain ⟨e, he, hue⟩ := List.mem_map.mp hu
  obtain ⟨hel, her⟩ := List.mem_filter.mp he
  have hc := mem_linkEntities.mp hel
  have hq := h e.identifier (of_decide_eq_true her)
  rw [opQuiescent_of_some pullOp pullOp_shift hc] at hq
  rw [← hue]
  cases hb : (pullOp e).is_state_changing with
  | false => simp
  | true => rw [hb] at hq; cases hq

theorem deleteService_no_change {g : GatewayState} {R : Finset Identifier}
    (h : ∀ i ∈ R, opQuiescent deleteOp (config g i) = true) :
    (deleteService g R).any Update.is_state_changing = false := by
  apply List.any_eq_false.mpr
  intro u hu
  obtain ⟨e, he, hue⟩ := List.mem_map.mp hu
  obtain ⟨hel, her⟩ := List.mem_filter.mp he
  have hc := mem_linkEntities.mp hel
  have hq := h e.identifier (of_decide_eq_true her)
  rw [opQuiescent_of_some deleteOp deleteOp_shift hc] at hq
  rw [← hue]
  cases hb : (deleteOp e).is_state_changing with
  | false => simp
  | true => rw [hb] at hq; cases hq

/-- Claim C8: idempotence of the use cases — once every requested
identifier is in a terminal state for the operation (for PULL:
`Pulled`, `Tainted` or `Deprecated`, or unknown to the link; for DELETE:
`Idle` or `Deprecated`, or unknown), re-invoking the use case with the
same requested set is a no-op: the gateway state (entity states and
component assignments) is unchanged, for any fuel. -/
theorem C8_idempotence (g : GatewayState) (R : Finset Identifier)
    (f1 f2 : Nat) :
    ((∀ i ∈ R,
        stateOfConfig (config g i) = some .Pulled ∨
          stateOfConfig (config g i) = some .Tainted ∨
          stateOfConfig (config g i) = some .Deprecated ∨
          stateOfConfig (config g i) = none) →
      pullUseCase f1 g R = g) ∧
    ((∀ i ∈ R,
        stateOfConfig (config g i) = some .Idle ∨
          stateOfConfig (config g i) = some .Deprecated ∨
          stateOfConfig (config g i) = none) →
      deleteUseCase f2 g R = g) := by
  constructor
  · intro h
    unfold pullUseCase
    apply drainLoop_no_change
    apply pullService_no_change
    intro i hi
    exact pull_terminal_quiescent _ (h i hi)
  · intro h
    unfold deleteUseCase
    apply drainLoop_no_change
    apply deleteService_no_change
    intro i hi
    exact delete_terminal_quiescent _ (h i hi)

/-- A concrete gateway state holding one entity in state `Deprecated`
(terminal for both use cases). -/
def deprecatedGateway : GatewayState :=
  ⟨{1}, {1}, ∅, {1}, ∅, ∅⟩

theorem C8_witness :
    pullUseCase 5 deprecatedGateway {1} = deprecatedGateway ∧
      deleteUseCase 5 deprecatedGateway {1} = deprecatedGateway :=
  ⟨(C8_idempotence deprecatedGateway {1} 5 5).1 (by decide),
    (C8_idempotence deprecatedGateway {1} 5 5).2 (by decide)⟩

/-- Modelled from the spec: the operation named in an invalid-operation
error (`Operations` in `dj_link.domain.state`). -/
inductive Operations where
  | START_PULL
  | START_DELETE
deriving DecidableEq, Repr

/-- Modelled from the spec: the non-fatal error
`InvalidOperationRequested(operation, identifier, state)` collected into
the response event. -/
structure InvalidOperationRequested where
  operation : Operations
  identifier : Identifier
  state : State
deriving DecidableEq, Repr

/-- Modelled from the spec: the response event
`EntitiesPulled(requested, errors)` of the PULL use case. -/
structure EntitiesPulled where
  requested : Finset Identifier
  errors : Finset InvalidOperationRequested
deriving DecidableEq

/-- Modelled from the spec: the PULL use case runs the drain loop and
reports `EntitiesPulled(requested, errors)` where `errors` holds an
`InvalidOperationRequested(START_PULL, identifier, Deprecated)` for each
requested identifier that ended up in `Deprecated`; errors are collected
into the event, never raised (the function is total). -/
def pullUseCaseEvent (fuel : Nat) (g : GatewayState)
    (R : Finset Identifier) : EntitiesPulled :=
  let g' := pullUseCase fuel g R
  ⟨R, (R.filter fun i => stateOfConfig (config g' i) = some .Deprecated).image
    fun i => ⟨.START_PULL, i, .Deprecated⟩⟩

theorem pull_final_deprecated_iff :
    ∀ c : Config, okConfig c →
      (stateOfConfig
          (opEffect Entity.process
            (opEffect Entity.process (opEffect pullOp c))) =
          some .Deprecated ↔
        (stateOfConfig c = some .Deprecated ∨
          (c.isTainted = true ∧ stateOfConfig c = some .Activated) ∨
          (c.isTainted = true ∧ c.inDelete = true ∧
            stateOfConfig c = some .Received))) := by
  decide

theorem pull_quiescent_deprecated_iff :
    ∀ c : Config, okConfig c → opQuiescent pullOp c = true →
      (stateOfConfig c = some .Deprecated ↔
        (stateOfConfig c = some .Deprecated ∨
          (c.isTainted = true ∧ stateOfConfig c = some .Activated) ∨
          (c.isTainted = true ∧ c.inDelete = true ∧
            stateOfConfig c = some .Received))) := by
  decide

theorem pullService_all_quiescent {g : GatewayState} {R : Finset Identifier}
    (h : (pullService g R).any Update.is_state_changing = false) :
    ∀ i ∈ R, opQuiescent pullOp (config g i) = true := by
  intro i hiR
  cases hc : createEntity g i with
  | none => exact opQuiescent_of_none pullOp hc
  | some e =>
      rw [opQuiescent_of_some pullOp pullOp_shift hc]
      have hmem : pullOp e ∈ pullService g R := by
        apply List.mem_map_of_mem
        apply List.mem_filter.mpr
        constructor
        · rw [mem_linkEntities, createEntity_identifier hc]
          exact hc
        · rw [createEntity_identifier hc]
          exact decide_eq_true hiR
      have hne := List.any_eq_false.mp h _ hmem
      cases hb : (pullOp e).is_state_changing with
      | false => rfl
      | true => exact absurd hb hne

theorem config_pullUseCase_no_change (g : GatewayState) (R : Finset Identifier)
    (fuel : Nat) (i : Identifier)
    (h : (pullService g R).any Update.is_state_changing = false) :
    config (pullUseCase fuel g R) i = config g i := by
  unfold pullUseCase
  rw [drainLoop_no_change _ _ _ h]

/-- Claim C6: the PULL use case never raises on invalid-operation or
unknown-identifier conditions — it is a total function producing an
`EntitiesPulled(requested, errors)` event in which an
`InvalidOperationRequested(START_PULL, identifier, Deprecated)` error is
present exactly for the requested identifiers ending up in `Deprecated`
(equivalently: initially `Deprecated`, or tainted with an active process
that deprecates under pull), the rest of the batch proceeds, and when no
requested identifier ends in `Deprecated` the errors set is empty. -/
theorem C6_pull_error_collection (g : GatewayState) (R : Finset Identifier)
    (k : Nat) (hg : WF g) :
    (pullUseCaseEvent (k + 4) g R).requested = R ∧
    (∀ i ∈ R,
      ((⟨.START_PULL, i, .Deprecated⟩ : InvalidOperationRequested) ∈
          (pullUseCaseEvent (k + 4) g R).errors ↔
        stateOfConfig (config (pullUseCase (k + 4) g R) i) =
          some .Deprecated)) ∧
    (∀ i ∈ R,
      (stateOfConfig (config (pullUseCase (k + 4) g R) i) = some .Deprecated ↔
        (stateOfConfig (config g i) = some .Deprecated ∨
          ((config g i).isTainted = true ∧
            stateOfConfig (config g i) = some .Activated) ∨
          ((config g i).isTainted = true ∧ (config g i).inDelete = true ∧
            stateOfConfig (config g i) = some .Received)))) ∧
    ((∀ i ∈ R,
        stateOfConfig (config (pullUseCase (k + 4) g R) i) ≠ some .Deprecated) →
      (pullUseCaseEvent (k + 4) g R).errors = ∅) := by
  refine ⟨rfl, ?_, ?_, ?_⟩
  · intro i hiR
    constructor
    · intro hmem
      obtain ⟨j, hj, hje⟩ := Finset.mem_image.mp hmem
      obtain ⟨hjR, hjd⟩ := Finset.mem_filter.mp hj
      have hji : j = i := congrArg InvalidOperationRequested.identifier hje
      rw [← hji]
      exact hjd
    · intro hdep
      apply Finset.mem_image.mpr
      refine ⟨i, Finset.mem_filter.mpr ⟨hiR, hdep⟩, rfl⟩
  · intro i hiR
    by_cases hch : (pullService g R).any Update.is_state_changing = true
    · rw [config_pullUseCase_run g R k i hg hch, if_pos hiR]
      exact pull_final_deprecated_iff _ (WF_ok hg i)
    · have hfalse : (pullService g R).any Update.is_state_changing = false := by
        cases hb : (pullService g R).any Update.is_state_changing with
        | false => rfl
        | true => exact absurd hb hch
      rw [config_pullUseCase_no_change g R (k + 4) i hfalse]
      exact pull_quiescent_deprecated_iff _ (WF_ok hg i)
        (pullService_all_quiescent hfalse i hiR)
  · intro hnone
    have hfe : (R.filter fun i =>
        stateOfConfig (config (pullUseCase (k + 4) g R) i) = some .Deprecated) =
        ∅ := by
      apply Finset.filter_eq_empty_iff.mpr
      intro i hiR
      simpa using hnone i hiR
    show Finset.image
        (fun i =>
          (⟨.START_PULL, i, .Deprecated⟩ : InvalidOperationRequested))
        (R.filter fun i =>
          stateOfConfig (config (pullUseCase (k + 4) g R) i) = some .Deprecated) =
      ∅
    rw [hfe, Finset.image_empty]

theorem C6_witness :
    WF idleGateway ∧
      ((pullUseCaseEvent 4 idleGateway {1}).requested = {1} ∧
        (∀ i ∈ ({1} : Finset Identifier),
          ((⟨.START_PULL, i, .Deprecated⟩ : InvalidOperationRequested) ∈
              (pullUseCaseEvent 4 idleGateway {1}).errors ↔
            stateOfConfig (config (pullUseCase 4 idleGateway {1}) i) =
              some .Deprecated)) ∧
        (∀ i ∈ ({1} : Finset Identifier),
          (stateOfConfig (config (pullUseCase 4 idleGateway {1}) i) =
              some .Deprecated ↔
            (stateOfConfig (config idleGateway i) = some .Deprecated ∨
              ((config idleGateway i).isTainted = true ∧
                stateOfConfig (config idleGateway i) = some .Activated) ∨
              ((config idleGateway i).isTainted = true ∧
                (config idleGateway i).inDelete = true ∧
                stateOfConfig (config idleGateway i) = some .Received)))) ∧
        ((∀ i ∈ ({1} : Finset Identifier),
            stateOfConfig (config (pullUseCase 4 idleGateway {1}) i) ≠
              some .Deprecated) →
          (pullUseCaseEvent 4 idleGateway {1}).errors = ∅)) :=
  ⟨by decide, C6_pull_error_collection idleGateway {1} 0 (by decide)⟩

/-- The database side effects performed by the table-level `Link` class
of `src/link.py`, in program order. -/
inductive DBEvent where
  | startLocalTransaction
  | startRemoteTransaction
  | commitRemoteTransaction
  | commitLocalTransaction
  | deleteObsoleteFlags
  | deleteObsoleteEntities
  | pullNewFlags
  | fetchPrimaryKeys
  | fetchEntities
  | insertOutbound
  | insertInbound
  | insertLocal
  | tableDelete
deriving DecidableEq, Repr

/-- `Link.transaction` of `src/link.py`: a context manager entering the
local-host transaction and the remote-host transaction together around
the body, committing the remote one and then the local one on exit. -/
def transactionTrace (body : List DBEvent) : List DBEvent :=
  [.startLocalTransaction, .startRemoteTransaction] ++ body ++
    [.commitRemoteTransaction, .commitLocalTransaction]

/-- `Link._refresh` of `src/link.py` (success path): inside one
transaction spanning both connections, delete obsolete flags, delete
obsolete entities, then pull new flags. -/
def refreshTrace : List DBEvent :=
  transactionTrace [.deleteObsoleteFlags, .deleteObsoleteEntities, .pullNewFlags]

/-- `Link.pull` of `src/link.py` (success path): refresh first, then
fetch the restricted primary keys and entities from the remote host, then
insert the outbound, inbound and local rows inside one transaction. -/
def pullTrace : List DBEvent :=
  refreshTrace ++ [.fetchPrimaryKeys, .fetchEntities] ++
    transactionTrace [.insertOutbound, .insertInbound, .insertLocal]

/-- `LocalTable.delete` of `src/link.py`: the inherited table deletion
runs first, and only afterwards is `link.refresh()` invoked. -/
def deleteTrace : List DBEvent :=
  [.tableDelete] ++ refreshTrace

/-- Claim C9, counterexample: as stated the claim is false — the
reconciliation is not invoked at the start of every delete.
`LocalTable.delete` performs the table deletion first and invokes the
reconciliation only afterwards, so the delete trace does not begin with
the reconciliation trace (its first event is the table deletion). -/
theorem C9_counterexample :
    ¬ deleteTrace.take refreshTrace.length = refreshTrace ∧
      deleteTrace.head? = some DBEvent.tableDelete := by
  decide

/-- Claim C9 (amended): the reconciliation — deleting obsolete flags,
deleting obsolete entities and pulling new flags — runs inside a single
transaction opened on both database connections, and it is invoked at
the start of every pull but only after the table deletion in every
delete. -/
theorem C9_reconciliation_transactional :
    refreshTrace =
      transactionTrace
        [DBEvent.deleteObsoleteFlags, DBEvent.deleteObsoleteEntities,
          DBEvent.pullNewFlags] ∧
      refreshTrace =
        [DBEvent.startLocalTransaction, DBEvent.startRemoteTransaction,
          DBEvent.deleteObsoleteFlags, DBEvent.deleteObsoleteEntities,
          DBEvent.pullNewFlags, DBEvent.commitRemoteTransaction,
          DBEvent.commitLocalTransaction] ∧
      pullTrace.take refreshTrace.length = refreshTrace ∧
      deleteTrace = DBEvent.tableDelete :: refreshTrace :=
  ⟨rfl, rfl, rfl, rfl⟩

/-- Modelled from the spec: an entity row of the outbound ledger in the
older repository/flag-manager design (spec section 9 records this design
as coexisting with the state-machine model); its fields are the deletion
request and approval flags its unit tests manipulate. -/
structure OutboundEntity where
  identifier : Identifier
  deletion_requested : Bool
  deletion_approved : Bool
deriving DecidableEq, Repr

/-- Modelled from the spec: the outbound repository of the older design
(`link.entities.outbound.OutboundRepository`, whose source module is
absent), with behaviour pinned by
`tests/unit/entities/repository_subclasses/test_outbound.py`. -/
structure OutboundRepository where
  entities : List OutboundEntity
deriving DecidableEq, Repr

/-- The identifiers currently present in the outbound repository. -/
def OutboundRepository.identifiers (r : OutboundRepository) :
    List Identifier :=
  r.entities.map OutboundEntity.identifier

/-- Modelled from the spec: `OutboundRepository.delete(identifiers)` of
the older design.  The method first checks every requested identifier for
presence in the local repository and raises `RuntimeError` before any
deletion when one or more are present; otherwise entities whose deletion
was requested have it approved and the remaining requested entities are
deleted.  The result pairs the repository state visible after the call
with the raised error, if any. -/
def OutboundRepository.delete (r : OutboundRepository)
    (localRepo : Finset Identifier) (requested : List Identifier) :
    OutboundRepository × Option String :=
  if requested.any fun i => decide (i ∈ localRepo) then
    (r, some "cannot delete entities that are present in local repository")
  else
    (⟨r.entities.filterMap fun e =>
      if e.identifier ∈ requested then
        (if e.deletion_requested then
          some { e with deletion_approved := true }
        else none)
      else some e⟩, none)

/-- Claim C10: `OutboundRepository.delete` raises `RuntimeError` when
one or more requested entities are still present in the local
repository, and when it raises, the outbound repository and hence its
set of identifiers are unchanged — the check precedes every deletion. -/
theorem C10_outbound_delete_raises_before_deletion
    (r : OutboundRepository) (localRepo : Finset Identifier)
    (requested : List Identifier) (h : ∃ i ∈ requested, i ∈ localRepo) :
    (r.delete localRepo requested).2.isSome = true ∧
      (r.delete localRepo requested).1 = r ∧
      (r.delete localRepo requested).1.identifiers = r.identifiers := by
  have hany : (requested.any fun i => decide (i ∈ localRepo)) = true := by
    apply List.any_eq_true.mpr
    obtain ⟨i, hi, hl⟩ := h
    exact ⟨i, hi, decide_eq_true hl⟩
  unfold OutboundRepository.delete
  rw [hany]
  exact ⟨rfl, rfl, rfl⟩

/-- A concrete outbound repository with one entity. -/
def exampleOutboundRepo : OutboundRepository :=
  ⟨[⟨1, false, false⟩]⟩

theorem C10_witness :
    (∃ i ∈ [(1 : Identifier)], i ∈ ({1} : Finset Identifier)) ∧
      ((exampleOutboundRepo.delete {1} [1]).2.isSome = true ∧
        (exampleOutboundRepo.delete {1} [1]).1 = exampleOutboundRepo ∧
        (exampleOutboundRepo.delete {1} [1]).1.identifiers =
          exampleOutboundRepo.identifiers) :=
  ⟨⟨1, by decide, by decide⟩,
    C10_outbound_delete_raises_before_deletion exampleOutboundRepo {1} [1]
      ⟨1, by decide, by decide⟩⟩

end DJLink
